import Mathlib

/-!
Shallow embedding of the post/topic routers of the FastAPI + MongoDB-ODM blog
backend (`app/post/routers/posts.py` and the schemas in
`app/post/schemas/posts.py`), together with theorems checking the
natural-language specification of the repository against this embedding.

Modelling conventions:
- MongoDB ObjectIds are modelled as natural numbers drawn from a per-store
  fresh-id counter `nextId`; datetimes are natural numbers; `datetime.utcnow()`
  is a parameter `now`.
- Each HTTP handler is a pure function from the store (and its inputs and the
  oracles for randomness / placeholder ObjectId generation) to the new store
  and an `Except` result; raising `CustomException` is the `Except.error` case.
- The store enforces the slug uniqueness index of each collection: a write that
  would duplicate a slug fails, which is exactly the failure the slug-retry
  loops catch.
-/

/-- Error codes of `app.base.exceptions.ExType` used by the posts router. -/
inductive ExType where
  | VALIDATION_ERROR
  | OBJECT_NOT_FOUND
  | PERMISSION_ERROR
deriving DecidableEq, Repr

/-- Payload of `app.base.exceptions.CustomException`: HTTP status, detail
message, machine-readable code and the optional offending field name. -/
structure CustomException where
  status_code : Nat
  detail : String
  code : ExType
  field : Option String
deriving DecidableEq, Repr

/-- Errors a handler can produce: a raised `CustomException`, or an unhandled
store exception (e.g. a duplicate-key error on the initial insert) that would
surface as a 500. -/
inductive ApiError where
  | custom : CustomException → ApiError
  | storeError : ApiError
deriving DecidableEq, Repr

/-- A user document (`app.user.models.User`); only the id is relevant to the
posts router. -/
structure User where
  id : Nat
deriving DecidableEq, Repr

/-- A topic document: name (stored lowercased), slug (absent until the slug
allocator attaches one) and owning user. -/
structure Topic where
  id : Nat
  name : String
  slug : Option String
  user_id : Option Nat
deriving DecidableEq, Repr

/-- A post document, per the `Post` model fields used by the router. -/
structure Post where
  id : Nat
  author_id : Nat
  slug : String
  title : String
  short_description : Option String
  description : Option String
  cover_image : Option String
  publish_at : Option Nat
  topic_ids : List Nat
deriving DecidableEq, Repr

/-- The document store: the three collections touched by the posts router and
a fresh-id counter standing for ObjectId generation. -/
structure Store where
  nextId : Nat
  users : List User
  topics : List Topic
  posts : List Post
deriving DecidableEq, Repr

/-- The store all executions start from. -/
def emptyStore : Store := ⟨0, [], [], []⟩

/-- Body of `PostCreate`: `topics` is a list of topic slugs. -/
structure PostCreate where
  title : String
  short_description : Option String
  description : Option String
  cover_image : Option String
  publish_at : Option Nat
  topics : List String
deriving DecidableEq, Repr

/-- Body of `PostUpdate` (mirroring `PostIn` in `app/post/schemas/posts.py`):
every field optional, and no slug field at all. `none` models a field left
unset in the payload. -/
structure PostUpdate where
  title : Option String
  short_description : Option String
  cover_image : Option String
  publish_at : Option Nat
  description : Option String
deriving DecidableEq, Repr

/-- Body of `TopicIn`. -/
structure TopicIn where
  name : String
deriving DecidableEq, Repr

/-- Truthiness of an optional Python string: `None` and `""` are falsy. -/
def pyStrFalsy : Option String → Bool
  | none => true
  | some s => s == ""

/-- Lowercase a string character by character (`str.lower()`). -/
def py_lower (s : String) : String :=
  String.mk (s.toList.map Char.toLower)

/-- Split a character list on spaces, mirroring `String.splitOn " "`. -/
def splitOnSpace : List Char → List (List Char)
  | [] => [[]]
  | c :: rest =>
    if c = ' ' then [] :: splitOnSpace rest
    else match splitOnSpace rest with
      | [] => [[c]]
      | w :: ws => (c :: w) :: ws

/-- Modelled from the spec: normalization of `slugify` (the external
`python-slugify` library): lowercase, keep alphanumeric runs, join the runs
with single hyphens (so a string with no alphanumeric character slugifies to
the empty string). -/
def slugify (s : String) : String :=
  String.intercalate "-"
    (((splitOnSpace (s.toList.map fun c =>
        if c.isAlpha || c.isDigit then c.toLower else ' ')).map String.mk).filter
      fun w => w != "")

/-- Modelled from the spec: `app.base.utils.string.rand_slug_str i` returns a
random alphanumeric string whose length depends on (here: equals) the attempt
index `i`; the randomness source is the character oracle `randChar`. -/
def rand_slug_str (randChar : Nat → Char) (i : Nat) : String :=
  String.mk ((List.range i).map randChar)

/-- Candidate slug of attempt `i`: the base slug itself on attempt 1, the base
slug, a hyphen and the random suffix on later attempts
(`f"{slug}-{rand_slug_str(i)}" if i > 1 else slug`). -/
def candidateSlug (slug : String) (suffix : Nat → String) (i : Nat) : String :=
  if i > 1 then slug ++ "-" ++ suffix i else slug

/-- Core of the slug-retry loop: walk the attempt indices, try to persist each
candidate, stop at the first success. Returns the list of candidates on which
a persist was actually attempted, and the successful candidate if any. -/
def allocGo (persist : String → Bool) (slug : String) (suffix : Nat → String) :
    List Nat → List String × Option String
  | [] => ([], none)
  | i :: rest =>
    let c := candidateSlug slug suffix i
    if persist c then ([c], some c)
    else (c :: (allocGo persist slug suffix rest).1, (allocGo persist slug suffix rest).2)

/-- Attempt indices of `for i in range(1, 10)`. -/
def attemptIndices : List Nat := List.range' 1 9

/-- The slug allocator: the `for i in range(1, 10)` retry loop shared by
`create_posts` and `create_topics`. -/
def allocate_unique_slug (persist : String → Bool) (slug : String)
    (suffix : Nat → String) : List String × Option String :=
  allocGo persist slug suffix attemptIndices

/-- Persisting slug `c` on post `pid` succeeds iff no other post already holds
`c` (the unique index on `Post.slug`). -/
def postSlugFree (s : Store) (pid : Nat) (c : String) : Bool :=
  s.posts.all fun p => p.id == pid || p.slug != c

/-- Persisting slug `c` on topic `tid` succeeds iff no other topic already
holds `c` (the unique index on `Topic.slug`). -/
def topicSlugFree (s : Store) (tid : Nat) (c : String) : Bool :=
  s.topics.all fun t => t.id == tid || t.slug != some c

/-- Write slug `c` onto the post with id `pid`. -/
def setPostSlug (s : Store) (pid : Nat) (c : String) : Store :=
  { s with posts := s.posts.map fun p => if p.id == pid then { p with slug := c } else p }

/-- Write slug `c` and owner `uid` onto the topic with id `tid`
(`topic.update({"$set": {"user_id": user.id, "slug": new_slug}})`). -/
def setTopicSlug (s : Store) (tid : Nat) (c : String) (uid : Nat) : Store :=
  { s with topics := s.topics.map fun t =>
      if t.id == tid then { t with slug := some c, user_id := some uid } else t }

/-- Insert a freshly created post document, consuming one fresh id. -/
def insertPost (s : Store) (p : Post) : Store :=
  { s with nextId := s.nextId + 1, posts := s.posts ++ [p] }

/-- Insert a freshly created topic document, consuming one fresh id. -/
def insertTopic (s : Store) (t : Topic) : Store :=
  { s with nextId := s.nextId + 1, topics := s.topics ++ [t] }

/-- First 200 characters of the description, `""` when it is absent or empty
(`get_short_description` in the router). -/
def get_short_description (description : Option String) : String :=
  match description with
  | some d => if d != "" then d.take 200 else ""
  | none => ""

/-- Short description stored by `create_posts`: the input short description
unless it is falsy (absent or empty), in which case `get_short_description`
of the input description. -/
def computedShortDescription (pd : PostCreate) : String :=
  if pyStrFalsy pd.short_description then get_short_description pd.description
  else pd.short_description.getD ""

/-- The post document `create_posts` inserts before slugging: placeholder slug
`ph` (standing for `str(ObjectId())`), topic ids resolved from the payload's
topic slugs, everything else straight from the payload. -/
def newPostOf (s : Store) (pd : PostCreate) (uid : Nat) (ph : String) : Post :=
  { id := s.nextId
    author_id := uid
    slug := ph
    title := pd.title
    short_description := some (computedShortDescription pd)
    description := pd.description
    cover_image := pd.cover_image
    publish_at := pd.publish_at
    topic_ids := (s.topics.filter fun t =>
      match t.slug with
      | some sl => pd.topics.contains sl
      | none => false).map Topic.id }

/-- Handler `create_posts`: insert the post with a placeholder slug (failing
with a raw store error if the placeholder itself collides with the unique
index), run the slug allocator on the slugified title, and on exhaustion
delete the post and raise the 400 VALIDATION_ERROR on field `title`. -/
def create_posts (s : Store) (pd : PostCreate) (uid : Nat) (ph : String)
    (r : Nat → Char) : Store × Except ApiError Post :=
  if s.posts.all (fun p => p.slug != ph) then
    let post := newPostOf s pd uid ph
    let s1 := insertPost s post
    match (allocate_unique_slug (postSlugFree s1 s.nextId) (slugify pd.title)
        (rand_slug_str r)).2 with
    | some c => (setPostSlug s1 s.nextId c, Except.ok { post with slug := c })
    | none =>
      ({ s1 with posts := s1.posts.filter fun p => p.id != s.nextId },
       Except.error (ApiError.custom ⟨400, "Title error", ExType.VALIDATION_ERROR, some "title"⟩))
  else (s, Except.error ApiError.storeError)

/-- The topic document `Topic.get_or_create` inserts when the name is new:
lowercased name, no slug and no owner yet. -/
def newTopicOf (s : Store) (td : TopicIn) : Topic :=
  { id := s.nextId, name := py_lower td.name, slug := none, user_id := none }

/-- Handler `create_topics`: get-or-create by lowercased name; when created,
run the slug allocator on the slugified name, attaching owner and slug
together, and on exhaustion delete the topic and raise the 400
VALIDATION_ERROR on field `name`. -/
def create_topics (s : Store) (td : TopicIn) (uid : Nat) (r : Nat → Char) :
    Store × Except ApiError Topic :=
  match s.topics.find? (fun t => t.name == py_lower td.name) with
  | some t => (s, Except.ok t)
  | none =>
    let topic := newTopicOf s td
    let s1 := insertTopic s topic
    match (allocate_unique_slug (topicSlugFree s1 s.nextId) (slugify (py_lower td.name))
        (rand_slug_str r)).2 with
    | some c =>
      (setTopicSlug s1 s.nextId c uid,
       Except.ok { topic with slug := some c, user_id := some uid })
    | none =>
      ({ s1 with topics := s1.topics.filter fun t => t.id != s.nextId },
       Except.error (ApiError.custom ⟨400, "Name error", ExType.VALIDATION_ERROR, some "name"⟩))

/-- Published filter `{"publish_at": {"$ne": None, "$lt": now}}`: the publish
time is set and strictly before `now`. -/
def published (now : Nat) (p : Post) : Bool :=
  match p.publish_at with
  | some t => decide (t < now)
  | none => false

/-- Listing filter of `get_posts`: published, narrowed by author id, topic-id
membership (only when the `topics` query list is nonempty) and exact title
match (only when `q` is a nonempty string). -/
def post_matches (now : Nat) (q : Option String) (topics : List Nat)
    (author_id : Option Nat) (p : Post) : Bool :=
  published now p
    && (match author_id with
        | some a => p.author_id == a
        | none => true)
    && (if topics.isEmpty then true else p.topic_ids.any fun tid => topics.contains tid)
    && (match q with
        | some qs => if qs == "" then true else p.title == qs
        | none => true)

/-- Modelled from the spec: `app.base.utils.get_offset` of the offset/limit
pagination, `(page - 1) * limit`. -/
def get_offset (page limit : Nat) : Nat := (page - 1) * limit

/-- Response of the listing endpoint: total matching count plus one page. -/
structure PostsPage where
  count : Nat
  results : List Post
deriving DecidableEq, Repr

/-- Handler `get_posts`: filter, count all matches, return the requested
offset/limit slice (the dropped `description` projection is immaterial here). -/
def get_posts (s : Store) (now : Nat) (page limit : Nat) (q : Option String)
    (topics : List Nat) (author_id : Option Nat) : PostsPage :=
  let matched := s.posts.filter (post_matches now q topics author_id)
  ⟨matched.length, (matched.drop (get_offset page limit)).take limit⟩

/-- The error `get_post_details` raises when the post lookup or the author
lookup fails. -/
def detailsNotFoundError : ApiError :=
  ApiError.custom ⟨400, "Object not found.", ExType.OBJECT_NOT_FOUND, none⟩

/-- Handler `get_post_details`: find the post by slug subject to the publish
filter, then resolve its author; any failure of either lookup raises the
single 400 OBJECT_NOT_FOUND error. -/
def get_post_details (s : Store) (now : Nat) (slug : String) : Except ApiError Post :=
  match s.posts.find? (fun p => p.slug == slug && published now p) with
  | none => Except.error detailsNotFoundError
  | some p =>
    match s.users.find? (fun u => u.id == p.author_id) with
    | none => Except.error detailsNotFoundError
    | some _ => Except.ok p

/-- Modelled from the spec: the generic 404-lookup helper
`app.base.utils.query.get_object_or_404`, raising a 404 OBJECT_NOT_FOUND when
no document matches. -/
def get_object_or_404 (posts : List Post) (slug : String) : Except ApiError Post :=
  match posts.find? (fun p => p.slug == slug) with
  | some p => Except.ok p
  | none => Except.error (ApiError.custom ⟨404, "Object not found.", ExType.OBJECT_NOT_FOUND, none⟩)

/-- Modelled from the spec: the generic partial-update-merge helper
`app.base.utils.update_partially`: copy onto the post exactly the payload
fields that are provided, leaving unset fields untouched. -/
def update_partially (p : Post) (u : PostUpdate) : Post :=
  { p with
    title := u.title.getD p.title
    short_description := match u.short_description with
      | some sd => some sd
      | none => p.short_description
    cover_image := match u.cover_image with
      | some ci => some ci
      | none => p.cover_image
    publish_at := match u.publish_at with
      | some t => some t
      | none => p.publish_at
    description := match u.description with
      | some d => some d
      | none => p.description }

/-- Post stored by a successful `update_posts`: the partial merge, then the
unconditional `post.short_description = post_data.short_description`, then the
recomputation from the description when the result is falsy and a (truthy)
description was provided. -/
def mergedPost (post : Post) (pd : PostUpdate) : Post :=
  let p1 := update_partially post pd
  let p2 := { p1 with short_description := pd.short_description }
  if pyStrFalsy p2.short_description && !(pyStrFalsy pd.description) then
    { p2 with short_description := some (get_short_description pd.description) }
  else p2

/-- Permission error raised by `update_posts` for a non-author. -/
def updateForbiddenError : ApiError :=
  ApiError.custom
    ⟨403, "You don\x27t have access to update this post.", ExType.PERMISSION_ERROR, none⟩

/-- Handler `update_posts`: 404 lookup by slug, author check, partial merge
and short-description recomputation, then persist the merged document. -/
def update_posts (s : Store) (slug : String) (pd : PostUpdate) (uid : Nat) :
    Store × Except ApiError String :=
  match get_object_or_404 s.posts slug with
  | Except.error e => (s, Except.error e)
  | Except.ok post =>
    if post.author_id != uid then (s, Except.error updateForbiddenError)
    else
      ({ s with posts := s.posts.map fun p =>
          if p.id == post.id then mergedPost post pd else p },
       Except.ok "Post Updated")

/-- Permission error raised by `delete_post` for a non-author. -/
def deleteForbiddenError : ApiError :=
  ApiError.custom
    ⟨403, "You don\x27t have access to delete this post.", ExType.PERMISSION_ERROR, none⟩

/-- HTTP status of the delete endpoint's success response
(`@router.delete(..., status_code=status.HTTP_200_OK)`). -/
def delete_post_http_status : Nat := 200

/-- Handler `delete_post`: 404 lookup by slug, author check, then return the
success message without deleting anything. -/
def delete_post (s : Store) (slug : String) (uid : Nat) :
    Store × Except ApiError String :=
  match get_object_or_404 s.posts slug with
  | Except.error e => (s, Except.error e)
  | Except.ok post =>
    if post.author_id != uid then (s, Except.error deleteForbiddenError)
    else (s, Except.ok "Deleted")

/-- One store transition: any one of the mutating handlers run against the
store (the read endpoints do not change the store). -/
inductive StoreStep : Store → Store → Prop where
  | createPost (s : Store) (pd : PostCreate) (uid : Nat) (ph : String) (r : Nat → Char) :
      StoreStep s (create_posts s pd uid ph r).1
  | createTopic (s : Store) (td : TopicIn) (uid : Nat) (r : Nat → Char) :
      StoreStep s (create_topics s td uid r).1
  | updatePost (s : Store) (slug : String) (pd : PostUpdate) (uid : Nat) :
      StoreStep s (update_posts s slug pd uid).1
  | deletePost (s : Store) (slug : String) (uid : Nat) :
      StoreStep s (delete_post s slug uid).1

/-- Stores reachable from the empty store by handler runs. -/
def Reachable (s : Store) : Prop :=
  Relation.ReflTransGen StoreStep emptyStore s

theorem allocGo_tried_eq (P : String → Bool) (b : String) (sf : Nat → String) :
    ∀ is : List Nat,
      (allocGo P b sf is).1 = (is.take (allocGo P b sf is).1.length).map (candidateSlug b sf)
  | [] => rfl
  | i :: rest => by
    by_cases h : P (candidateSlug b sf i)
    · simp [allocGo, h]
    · have ih := allocGo_tried_eq P b sf rest
      simp only [allocGo, h, Bool.false_eq_true, if_false, List.length_cons, List.take_succ_cons,
        List.map_cons, List.cons.injEq, true_and]
      exact ih

theorem allocGo_length_le (P : String → Bool) (b : String) (sf : Nat → String) :
    ∀ is : List Nat, (allocGo P b sf is).1.length ≤ is.length
  | [] => le_refl _
  | i :: rest => by
    by_cases h : P (candidateSlug b sf i)
    · simp [allocGo, h]
    · have ih := allocGo_length_le P b sf rest
      simp only [allocGo, h, Bool.false_eq_true, if_false, List.length_cons]
      omega

theorem allocGo_some (P : String → Bool) (b : String) (sf : Nat → String) :
    ∀ (is : List Nat) (c : String), (allocGo P b sf is).2 = some c →
      P c = true ∧ (allocGo P b sf is).1.getLast? = some c
        ∧ ∀ x ∈ (allocGo P b sf is).1.dropLast, P x = false
  | [], c, h => by simp [allocGo] at h
  | i :: rest, c, h => by
    by_cases hp : P (candidateSlug b sf i)
    · simp only [allocGo, hp, if_true] at h ⊢
      obtain rfl : candidateSlug b sf i = c := by simpa using h
      simpa using hp
    · simp only [allocGo, hp, Bool.false_eq_true, if_false] at h ⊢
      obtain ⟨h1, h2, h3⟩ := allocGo_some P b sf rest c h
      have hne : (allocGo P b sf rest).1 ≠ [] := by
        intro he; rw [he] at h2; simp at h2
      obtain ⟨y, ys, ht⟩ := List.exists_cons_of_ne_nil hne
      rw [ht] at h2 h3 ⊢
      have hd : (candidateSlug b sf i :: y :: ys).dropLast
          = candidateSlug b sf i :: (y :: ys).dropLast := rfl
      refine ⟨h1, ?_, ?_⟩
      · simpa using h2
      · intro x hx
        rw [hd, List.mem_cons] at hx
        rcases hx with rfl | hx
        · simpa using hp
        · exact h3 x hx

theorem allocGo_none (P : String → Bool) (b : String) (sf : Nat → String) :
    ∀ is : List Nat, (allocGo P b sf is).2 = none →
      (allocGo P b sf is).1.length = is.length ∧ ∀ x ∈ (allocGo P b sf is).1, P x = false
  | [], _ => by simp [allocGo]
  | i :: rest, h => by
    by_cases hp : P (candidateSlug b sf i)
    · simp [allocGo, hp] at h
    · simp only [allocGo, hp, Bool.false_eq_true, if_false] at h ⊢
      obtain ⟨h1, h2⟩ := allocGo_none P b sf rest h
      refine ⟨by simpa using h1, ?_⟩
      intro x hx
      rcases List.mem_cons.mp hx with rfl | hx
      · simpa using hp
      · exact h2 x hx

theorem allocGo_none_of_fail (P : String → Bool) (b : String) (sf : Nat → String) :
    ∀ is : List Nat, (∀ i ∈ is, P (candidateSlug b sf i) = false) →
      (allocGo P b sf is).2 = none
  | [], _ => rfl
  | i :: rest, h => by
    have hi := h i (List.mem_cons_self i rest)
    simp only [allocGo, hi, Bool.false_eq_true, if_false]
    exact allocGo_none_of_fail P b sf rest fun j hj => h j (List.mem_cons_of_mem i hj)

/-- Claim C1: for every Post or Topic creation that needs a slug, the allocator
makes at most 9 persist attempts; attempt 1 uses the slugified base text as the
candidate, every attempt `i > 1` uses the base slug followed by a hyphen and a
random alphanumeric suffix of attempt-dependent length `i`, and the first
attempt whose persist succeeds is recorded as the entity's slug with no
further attempts made. -/
theorem C1_slug_allocator (persist : String → Bool) (baseText : String)
    (randChar : Nat → Char) :
    (candidateSlug (slugify baseText) (rand_slug_str randChar) 1 = slugify baseText)
    ∧ (∀ i, 1 < i →
        candidateSlug (slugify baseText) (rand_slug_str randChar) i
            = slugify baseText ++ "-" ++ rand_slug_str randChar i
          ∧ (rand_slug_str randChar i).length = i)
    ∧ (allocate_unique_slug persist (slugify baseText) (rand_slug_str randChar)).1.length ≤ 9
    ∧ (∀ j (hj : j < (allocate_unique_slug persist (slugify baseText)
          (rand_slug_str randChar)).1.length),
        (allocate_unique_slug persist (slugify baseText) (rand_slug_str randChar)).1[j]
          = candidateSlug (slugify baseText) (rand_slug_str randChar) (j + 1))
    ∧ (∀ c, (allocate_unique_slug persist (slugify baseText) (rand_slug_str randChar)).2 = some c →
        persist c = true
          ∧ (allocate_unique_slug persist (slugify baseText)
              (rand_slug_str randChar)).1.getLast? = some c
          ∧ ∀ x ∈ (allocate_unique_slug persist (slugify baseText)
              (rand_slug_str randChar)).1.dropLast, persist x = false)
    ∧ (∀ (s : Store) (pd : PostCreate) (uid : Nat) (ph : String) (p : Post),
        (create_posts s pd uid ph randChar).2 = Except.ok p →
        (allocate_unique_slug (postSlugFree (insertPost s (newPostOf s pd uid ph)) s.nextId)
            (slugify pd.title) (rand_slug_str randChar)).2 = some p.slug)
    ∧ (∀ (s : Store) (td : TopicIn) (uid : Nat) (t : Topic),
        (create_topics s td uid randChar).2 = Except.ok t →
        t ∈ s.topics ∨
          (allocate_unique_slug (topicSlugFree (insertTopic s (newTopicOf s td)) s.nextId)
              (slugify (py_lower td.name)) (rand_slug_str randChar)).2 = t.slug) := by
  refine ⟨by simp [candidateSlug], ?_, ?_, ?_, ?_, ?_, ?_⟩
  · intro i hi
    refine ⟨by simp [candidateSlug, hi], ?_⟩
    simp [rand_slug_str, String.length]
  · have h := allocGo_length_le persist (slugify baseText) (rand_slug_str randChar) attemptIndices
    simpa [allocate_unique_slug, attemptIndices] using h
  · intro j hj
    have ht := allocGo_tried_eq persist (slugify baseText) (rand_slug_str randChar) attemptIndices
    have hle := allocGo_length_le persist (slugify baseText) (rand_slug_str randChar) attemptIndices
    simp only [allocate_unique_slug] at hj ⊢
    have h1 := List.getElem_of_eq ht hj
    rw [h1, List.getElem_map, List.getElem_take]
    have h2 : (1 : Nat) + j = j + 1 := Nat.add_comm 1 j
    simp [attemptIndices, List.getElem_range', h2]
  · intro c hc
    exact allocGo_some persist (slugify baseText) (rand_slug_str randChar) attemptIndices c hc
  · intro s pd uid ph p h
    simp only [create_posts] at h
    split at h
    · split at h
      · rename_i heq
        obtain rfl : _ = p := Except.ok.inj h
        exact heq
      · exact absurd h (by simp)
    · exact absurd h (by simp)
  · intro s td uid t h
    simp only [create_topics] at h
    split at h
    · rename_i t0 hfind
      obtain rfl : t0 = t := Except.ok.inj h
      exact Or.inl (List.mem_of_find?_eq_some hfind)
    · split at h
      · rename_i heq
        obtain rfl : _ = t := Except.ok.inj h
        exact Or.inr heq
      · exact absurd h (by simp)

theorem filter_ne_id_append (l : List Post) (post : Post) (pid : Nat)
    (hl : ∀ p ∈ l, p.id ≠ pid) (hpost : post.id = pid) :
    (l ++ [post]).filter (fun p => p.id != pid) = l := by
  rw [List.filter_append]
  have h1 : l.filter (fun p => p.id != pid) = l := by
    apply List.filter_eq_self.mpr
    intro p hp
    simpa using hl p hp
  have h2 : [post].filter (fun p => p.id != pid) = [] := by
    simp [List.filter, hpost]
  rw [h1, h2, List.append_nil]

theorem filter_ne_id_append_topic (l : List Topic) (topic : Topic) (tid : Nat)
    (hl : ∀ t ∈ l, t.id ≠ tid) (htopic : topic.id = tid) :
    (l ++ [topic]).filter (fun t => t.id != tid) = l := by
  rw [List.filter_append]
  have h1 : l.filter (fun t => t.id != tid) = l := by
    apply List.filter_eq_self.mpr
    intro t ht
    simpa using hl t ht
  have h2 : [topic].filter (fun t => t.id != tid) = [] := by
    simp [List.filter, htopic]
  rw [h1, h2, List.append_nil]

/-- Claim C2: if all 9 slug persist attempts fail during creation, the
speculatively created entity is deleted from the store (the posts / topics
collection is exactly what it was before) and a validation error is raised
naming the conflicting field: `title` for a Post, `name` for a Topic. -/
theorem C2_slug_exhaustion_rollback
    (s : Store) (pd : PostCreate) (uid : Nat) (ph : String) (r : Nat → Char)
    (s2 : Store) (td : TopicIn) (uid2 : Nat) (r2 : Nat → Char)
    (hph : (s.posts.all fun p => p.slug != ph) = true)
    (hfailP : ∀ i ∈ attemptIndices,
        postSlugFree (insertPost s (newPostOf s pd uid ph)) s.nextId
          (candidateSlug (slugify pd.title) (rand_slug_str r) i) = false)
    (hidP : ∀ p ∈ s.posts, p.id ≠ s.nextId)
    (hnew : s2.topics.find? (fun t => t.name == py_lower td.name) = none)
    (hfailT : ∀ i ∈ attemptIndices,
        topicSlugFree (insertTopic s2 (newTopicOf s2 td)) s2.nextId
          (candidateSlug (slugify (py_lower td.name)) (rand_slug_str r2) i) = false)
    (hidT : ∀ t ∈ s2.topics, t.id ≠ s2.nextId) :
    ((create_posts s pd uid ph r).1.posts = s.posts
      ∧ (create_posts s pd uid ph r).1.topics = s.topics
      ∧ (create_posts s pd uid ph r).2
          = Except.error (ApiError.custom
              ⟨400, "Title error", ExType.VALIDATION_ERROR, some "title"⟩))
    ∧ ((create_topics s2 td uid2 r2).1.topics = s2.topics
      ∧ (create_topics s2 td uid2 r2).1.posts = s2.posts
      ∧ (create_topics s2 td uid2 r2).2
          = Except.error (ApiError.custom
              ⟨400, "Name error", ExType.VALIDATION_ERROR, some "name"⟩)) := by
  have hnoneP : (allocate_unique_slug
      (postSlugFree (insertPost s (newPostOf s pd uid ph)) s.nextId)
      (slugify pd.title) (rand_slug_str r)).2 = none :=
    allocGo_none_of_fail _ _ _ attemptIndices hfailP
  have hnoneT : (allocate_unique_slug
      (topicSlugFree (insertTopic s2 (newTopicOf s2 td)) s2.nextId)
      (slugify (py_lower td.name)) (rand_slug_str r2)).2 = none :=
    allocGo_none_of_fail _ _ _ attemptIndices hfailT
  constructor
  · simp only [create_posts, hph, if_true, hnoneP]
    refine ⟨?_, rfl, trivial⟩
    simp only [insertPost]
    exact filter_ne_id_append s.posts (newPostOf s pd uid ph) s.nextId hidP rfl
  · simp only [create_topics, hnew, hnoneT]
    refine ⟨?_, rfl, trivial⟩
    simp only [insertTopic]
    exact filter_ne_id_append_topic s2.topics (newTopicOf s2 td) s2.nextId hidT rfl

/-- Concrete post used by the exhaustion witness: id `i`, slug `sl`. -/
def c2Post (i : Nat) (sl : String) : Post := ⟨i, 0, sl, "x", none, none, none, none, []⟩

/-- Store in which every candidate slug for title `t` is already taken. -/
def c2StoreP : Store :=
  ⟨9, [], [], [c2Post 0 "t", c2Post 1 "t-aa", c2Post 2 "t-aaa", c2Post 3 "t-aaaa",
    c2Post 4 "t-aaaaa", c2Post 5 "t-aaaaaa", c2Post 6 "t-aaaaaaa", c2Post 7 "t-aaaaaaaa",
    c2Post 8 "t-aaaaaaaaa"]⟩

/-- Concrete topic used by the exhaustion witness. -/
def c2Topic (i : Nat) (nm sl : String) : Topic := ⟨i, nm, some sl, some 0⟩

/-- Store in which every candidate slug for name `n` is already taken. -/
def c2StoreT : Store :=
  ⟨9, [], [c2Topic 0 "b0" "n", c2Topic 1 "b1" "n-aa", c2Topic 2 "b2" "n-aaa",
    c2Topic 3 "b3" "n-aaaa", c2Topic 4 "b4" "n-aaaaa", c2Topic 5 "b5" "n-aaaaaa",
    c2Topic 6 "b6" "n-aaaaaaa", c2Topic 7 "b7" "n-aaaaaaaa", c2Topic 8 "b8" "n-aaaaaaaaa"], []⟩

/-- Creation payloads of the exhaustion witness. -/
def c2pd : PostCreate := ⟨"t", none, none, none, none, []⟩

def c2td : TopicIn := ⟨"N"⟩

/-- A fixed randomness oracle used by concrete executions. -/
def aChar : Nat → Char := fun _ => 'a'

/-- Witness for C2: a concrete store on which all nine persist attempts fail
for both a post and a topic creation, so both are rolled back with the
claimed validation errors. -/
theorem C2_witness :
    ((create_posts c2StoreP c2pd 0 "ph" aChar).1.posts = c2StoreP.posts
      ∧ (create_posts c2StoreP c2pd 0 "ph" aChar).1.topics = c2StoreP.topics
      ∧ (create_posts c2StoreP c2pd 0 "ph" aChar).2
          = Except.error (ApiError.custom
              ⟨400, "Title error", ExType.VALIDATION_ERROR, some "title"⟩))
    ∧ ((create_topics c2StoreT c2td 0 aChar).1.topics = c2StoreT.topics
      ∧ (create_topics c2StoreT c2td 0 aChar).1.posts = c2StoreT.posts
      ∧ (create_topics c2StoreT c2td 0 aChar).2
          = Except.error (ApiError.custom
              ⟨400, "Name error", ExType.VALIDATION_ERROR, some "name"⟩)) :=
  C2_slug_exhaustion_rollback c2StoreP c2pd 0 "ph" aChar c2StoreT c2td 0 aChar
    (by decide) (by decide) (by decide) (by decide) (by decide) (by decide)

/-- Claim C4 (amended): whenever GET /posts/{slug} finds no matching published
post (missing slug, not yet published, or author lookup failure), the response
is the not-found error (code OBJECT_NOT_FOUND, detail `Object not found.`)
with HTTP status 400, not 404. -/
theorem C4_not_found_status (s : Store) (now : Nat) (slug : String) :
    (∀ e, get_post_details s now slug = Except.error e → e = detailsNotFoundError)
    ∧ ((s.posts.all fun p => !(p.slug == slug && published now p)) = true →
        get_post_details s now slug = Except.error detailsNotFoundError)
    ∧ (∀ p, s.posts.find? (fun p0 => p0.slug == slug && published now p0) = some p →
        (s.users.all fun u => u.id != p.author_id) = true →
        get_post_details s now slug = Except.error detailsNotFoundError)
    ∧ (detailsNotFoundError
        = ApiError.custom ⟨400, "Object not found.", ExType.OBJECT_NOT_FOUND, none⟩) := by
  refine ⟨?_, ?_, ?_, rfl⟩
  · intro e he
    simp only [get_post_details] at he
    split at he
    · exact (Except.error.inj he).symm
    · split at he
      · exact (Except.error.inj he).symm
      · exact absurd he (by simp)
  · intro hall
    have hnone : s.posts.find? (fun p => p.slug == slug && published now p) = none := by
      rw [List.find?_eq_none]
      intro p hp
      have hthis := List.all_eq_true.mp hall p hp
      intro hs
      rw [hs] at hthis
      simp at hthis
    simp only [get_post_details, hnone]
  · intro p hfind hall
    have hnone : s.users.find? (fun u => u.id == p.author_id) = none := by
      rw [List.find?_eq_none]
      intro u hu
      have := List.all_eq_true.mp hall u hu
      simpa using this
    simp only [get_post_details, hfind, hnone]

/-- Counterexample for C4 as stated: on a concrete request that matches no
post, the response status is 400, not the claimed 404. -/
theorem C4_counterexample :
    get_post_details emptyStore 0 "missing" = Except.error detailsNotFoundError
    ∧ detailsNotFoundError
        = ApiError.custom ⟨400, "Object not found.", ExType.OBJECT_NOT_FOUND, none⟩
    ∧ (400 : Nat) ≠ 404 :=
  ⟨rfl, rfl, by decide⟩

/-- Creation payload of the short-description counterexample: an explicitly
provided empty short description together with a nonempty description. -/
def c9pd : PostCreate := ⟨"t", some "", some "x", none, none, []⟩

set_option maxRecDepth 4000 in
/-- Counterexample for C9 as stated: the payload provides
`short_description = ""`, yet the stored short description is the truncated
description `"x"`, not the provided `""`. -/
theorem C9_counterexample :
    (create_posts emptyStore c9pd 0 "ph" aChar).2
        = Except.ok ⟨0, 0, "t", "t", some "x", some "x", none, none, []⟩
    ∧ c9pd.short_description = some ""
    ∧ ("x" : String) ≠ "" :=
  ⟨rfl, rfl, by decide⟩

/-- Claim C9 (amended): the stored short_description equals the input
short_description when it is given as a nonempty string; otherwise (absent or
empty) it equals the first 200 characters of the input description; and when
the description is also absent or empty it equals the empty string. -/
theorem C9_short_description (s : Store) (pd : PostCreate) (uid : Nat)
    (ph : String) (r : Nat → Char) :
    (∀ p, (create_posts s pd uid ph r).2 = Except.ok p →
        p.short_description = some (computedShortDescription pd))
    ∧ (∀ sd, pd.short_description = some sd → sd ≠ "" →
        computedShortDescription pd = sd)
    ∧ ((pd.short_description = none ∨ pd.short_description = some "") →
        ∀ d, pd.description = some d → d ≠ "" →
        computedShortDescription pd = d.take 200)
    ∧ ((pd.short_description = none ∨ pd.short_description = some "") →
        (pd.description = none ∨ pd.description = some "") →
        computedShortDescription pd = "") := by
  refine ⟨?_, ?_, ?_, ?_⟩
  · intro p h
    simp only [create_posts] at h
    split at h
    · split at h
      · obtain rfl : _ = p := Except.ok.inj h
        rfl
      · exact absurd h (by simp)
    · exact absurd h (by simp)
  · intro sd hsd hne
    simp [computedShortDescription, pyStrFalsy, hsd, hne]
  · intro hmissing d hd hdne
    have hf : pyStrFalsy pd.short_description = true := by
      rcases hmissing with h | h <;> simp [pyStrFalsy, h]
    simp [computedShortDescription, hf, get_short_description, hd, hdne]
  · intro hmissing hdesc
    have hf : pyStrFalsy pd.short_description = true := by
      rcases hmissing with h | h <;> simp [pyStrFalsy, h]
    rcases hdesc with h | h <;>
      simp [computedShortDescription, hf, get_short_description, h]

/-- Claim C3: post listing returns exactly the posts whose publish_at is set
and strictly earlier than now (narrowed by exact title match, author id, or
topic-id membership when supplied), with the page being the offset/limit
slice of that match set; post detail applies the same publish filter, so a
post whose publish_at is unset or in the future is returned by neither read. -/
theorem C3_post_visibility (s : Store) (now page limit : Nat) (q : Option String)
    (topics : List Nat) (author_id : Option Nat) (slug : String) :
    ((get_posts s now page limit q topics author_id).count
        = (s.posts.filter (post_matches now q topics author_id)).length)
    ∧ ((get_posts s now page limit q topics author_id).results
        = ((s.posts.filter (post_matches now q topics author_id)).drop
            (get_offset page limit)).take limit)
    ∧ (∀ p, post_matches now q topics author_id p = true ↔
        ((∃ t, p.publish_at = some t ∧ t < now)
          ∧ (∀ a, author_id = some a → p.author_id = a)
          ∧ (topics ≠ [] → ∃ tid, tid ∈ p.topic_ids ∧ tid ∈ topics)
          ∧ (∀ qs, q = some qs → qs ≠ "" → p.title = qs)))
    ∧ (∀ p, get_post_details s now slug = Except.ok p →
        p ∈ s.posts ∧ p.slug = slug ∧ ∃ t, p.publish_at = some t ∧ t < now)
    ∧ (∀ p ∈ s.posts, (p.publish_at = none ∨ ∃ t, p.publish_at = some t ∧ now ≤ t) →
        (p ∉ (get_posts s now page limit q topics author_id).results
          ∧ ∀ p2, get_post_details s now p.slug = Except.ok p2 → p2 ≠ p)) := by
  refine ⟨rfl, rfl, ?_, ?_, ?_⟩
  · intro p
    cases hpub : p.publish_at with
    | none => simp [post_matches, published, hpub]
    | some t =>
      cases author_id <;> rcases q with _ | qs <;>
        by_cases htop : topics = [] <;>
        simp [post_matches, published, hpub, htop, List.isEmpty_iff,
          List.any_eq_true, List.elem_iff, and_assoc]
      all_goals try
        (by_cases hq : qs = "" <;>
          simp [hq, and_assoc])
  · intro p h
    simp only [get_post_details] at h
    split at h
    · exact absurd h (by simp)
    · rename_i p0 hfind
      split at h
      · exact absurd h (by simp)
      · obtain rfl : p0 = p := Except.ok.inj h
        have hm := List.mem_of_find?_eq_some hfind
        have hp := List.find?_some hfind
        rw [Bool.and_eq_true] at hp
        refine ⟨hm, by simpa using hp.1, ?_⟩
        have hpub := hp.2
        cases ht : p0.publish_at with
        | none =>
          simp only [published, ht] at hpub
          exact absurd hpub (by simp)
        | some t =>
          simp only [published, ht, decide_eq_true_eq] at hpub
          exact ⟨t, rfl, hpub⟩
  · intro p hp hunpub
    have hpubf : published now p = false := by
      rcases hunpub with h | ⟨t, ht, hge⟩
      · simp [published, h]
      · simp only [published, ht, decide_eq_false_iff_not]
        omega
    constructor
    · intro hmem
      have h1 := List.mem_of_mem_take hmem
      have h2 := List.mem_of_mem_drop h1
      have h3 := List.of_mem_filter h2
      simp [post_matches, hpubf] at h3
    · intro p2 hok heq
      subst heq
      simp only [get_post_details] at hok
      split at hok
      · exact absurd hok (by simp)
      · rename_i p0 hfind
        split at hok
        · exact absurd hok (by simp)
        · obtain rfl : p0 = p2 := Except.ok.inj hok
          have hp2 := List.find?_some hfind
          rw [Bool.and_eq_true] at hp2
          rw [hpubf] at hp2
          simpa using hp2.2

theorem mergedPost_eq (post : Post) (pd : PostUpdate) :
    mergedPost post pd =
      { id := post.id
        author_id := post.author_id
        slug := post.slug
        title := pd.title.getD post.title
        short_description :=
          if pyStrFalsy pd.short_description && !(pyStrFalsy pd.description) then
            some (get_short_description pd.description)
          else pd.short_description
        description := match pd.description with
          | some d => some d
          | none => post.description
        cover_image := match pd.cover_image with
          | some ci => some ci
          | none => post.cover_image
        publish_at := match pd.publish_at with
          | some t => some t
          | none => post.publish_at
        topic_ids := post.topic_ids } := by
  by_cases hc : (pyStrFalsy pd.short_description && !(pyStrFalsy pd.description)) = true <;>
    simp [mergedPost, update_partially, hc]

theorem map_update_by_id {α : Type} (f : Post → α) (post p3 : Post)
    (hf : f p3 = f post) :
    ∀ l : List Post, post ∈ l → (l.Pairwise fun a b => a.id ≠ b.id) →
      (l.map fun p => if p.id == post.id then p3 else p).map f = l.map f
  | [], hm, _ => absurd hm (List.not_mem_nil post)
  | a :: t, hm, hp => by
    rw [List.pairwise_cons] at hp
    obtain ⟨ha, ht⟩ := hp
    rcases List.mem_cons.mp hm with rfl | hmt
    · simp only [List.map_cons, beq_self_eq_true, if_true, hf]
      have hid : ∀ p ∈ t, (if p.id == post.id then p3 else p) = p := by
        intro p hpt
        have hne : post.id ≠ p.id := ha p hpt
        simp [Ne.symm hne]
      have h2 : t.map (fun p => if p.id == post.id then p3 else p) = t := by
        rw [List.map_congr_left hid]
        exact List.map_id t
      rw [h2]
    · have hane : a.id ≠ post.id := by
        intro he
        exact ha post hmt he
      have hhead : (if a.id == post.id then p3 else a) = a := by simp [hane]
      simp only [List.map_cons, hhead]
      rw [map_update_by_id f post p3 hf t hmt ht]

/-- Store of the short-description clobbering counterexample: one post whose
stored short description is `old`. -/
def c5Store : Store :=
  ⟨1, [], [], [⟨0, 1, "p", "t", some "old", none, none, none, []⟩]⟩

/-- The all-unset update payload. -/
def c5pd : PostUpdate := ⟨none, none, none, none, none⟩

/-- Counterexample for C5 as stated: an author update whose payload provides
no field at all still changes the stored short_description from `some "old"`
to `none`, so unset fields are not all left untouched. -/
theorem C5_counterexample :
    c5Store.posts.map Post.short_description = [some "old"]
    ∧ (update_posts c5Store "p" c5pd 1).2 = Except.ok "Post Updated"
    ∧ (update_posts c5Store "p" c5pd 1).1.posts.map Post.short_description = [none]
    ∧ some "old" ≠ (none : Option String) :=
  ⟨rfl, rfl, rfl, by decide⟩

/-- Claim C5 (amended): for an author update, every field other than
short_description follows the partial merge (unset payload fields leave the
stored values untouched, provided fields replace them; id, author, slug and
topic links never change), while short_description is overwritten with the
payload's short_description — `none` when unset — unless that value is falsy
and a nonempty description is provided, in which case it is recomputed via
`get_short_description`. -/
theorem C5_partial_update (s : Store) (slug : String) (pd : PostUpdate) (uid : Nat)
    (post : Post) (hfind : s.posts.find? (fun p => p.slug == slug) = some post)
    (hauth : post.author_id = uid) :
    (update_posts s slug pd uid).2 = Except.ok "Post Updated"
    ∧ (update_posts s slug pd uid).1.posts
        = s.posts.map (fun p => if p.id == post.id then mergedPost post pd else p)
    ∧ (update_posts s slug pd uid).1.topics = s.topics
    ∧ mergedPost post pd =
        { id := post.id
          author_id := post.author_id
          slug := post.slug
          title := pd.title.getD post.title
          short_description :=
            if pyStrFalsy pd.short_description && !(pyStrFalsy pd.description) then
              some (get_short_description pd.description)
            else pd.short_description
          description := match pd.description with
            | some d => some d
            | none => post.description
          cover_image := match pd.cover_image with
            | some ci => some ci
            | none => post.cover_image
          publish_at := match pd.publish_at with
            | some t => some t
            | none => post.publish_at
          topic_ids := post.topic_ids } := by
  have hob : get_object_or_404 s.posts slug = Except.ok post := by
    simp [get_object_or_404, hfind]
  refine ⟨?_, ?_, ?_, mergedPost_eq post pd⟩ <;>
    simp [update_posts, hob, hauth]

/-- The pre-existing post of the update witnesses. -/
def c5wPost : Post := ⟨0, 7, "p", "t", some "old", none, none, none, []⟩

/-- Store of the update witnesses: just `c5wPost`. -/
def c5wStore : Store := ⟨1, [], [], [c5wPost]⟩

/-- An update payload providing a title and a description only. -/
def c5wpd : PostUpdate := ⟨some "T2", none, none, some 5, some "D"⟩

/-- Witness for the amended C5 at a concrete author update. -/
theorem C5_witness :
    (update_posts c5wStore "p" c5wpd 7).2 = Except.ok "Post Updated"
    ∧ (update_posts c5wStore "p" c5wpd 7).1.posts
        = c5wStore.posts.map (fun p => if p.id == c5wPost.id then mergedPost c5wPost c5wpd else p)
    ∧ (update_posts c5wStore "p" c5wpd 7).1.topics = c5wStore.topics
    ∧ mergedPost c5wPost c5wpd =
        { id := c5wPost.id
          author_id := c5wPost.author_id
          slug := c5wPost.slug
          title := c5wpd.title.getD c5wPost.title
          short_description :=
            if pyStrFalsy c5wpd.short_description && !(pyStrFalsy c5wpd.description) then
              some (get_short_description c5wpd.description)
            else c5wpd.short_description
          description := match c5wpd.description with
            | some d => some d
            | none => c5wPost.description
          cover_image := match c5wpd.cover_image with
            | some ci => some ci
            | none => c5wPost.cover_image
          publish_at := match c5wpd.publish_at with
            | some t => some t
            | none => c5wPost.publish_at
          topic_ids := c5wPost.topic_ids } :=
  C5_partial_update c5wStore "p" c5wpd 7 c5wPost (by decide) (by decide)

/-- Claim C7: DELETE /posts/{slug} by the post's author responds with the
200 success message but performs no deletion: the whole store — hence the
post with all of its fields — is unchanged. -/
theorem C7_delete_noop (s : Store) (slug : String) (uid : Nat) (post : Post)
    (hfind : s.posts.find? (fun p => p.slug == slug) = some post)
    (hauth : post.author_id = uid) :
    delete_post s slug uid = (s, Except.ok "Deleted")
    ∧ delete_post_http_status = 200
    ∧ post ∈ (delete_post s slug uid).1.posts := by
  have hob : get_object_or_404 s.posts slug = Except.ok post := by
    simp [get_object_or_404, hfind]
  have h1 : delete_post s slug uid = (s, Except.ok "Deleted") := by
    simp [delete_post, hob, hauth]
  exact ⟨h1, rfl, by rw [h1]; exact List.mem_of_find?_eq_some hfind⟩

/-- Witness for C7 at a concrete author delete. -/
theorem C7_witness :
    delete_post c5wStore "p" 7 = (c5wStore, Except.ok "Deleted")
    ∧ delete_post_http_status = 200
    ∧ c5wPost ∈ (delete_post c5wStore "p" 7).1.posts :=
  C7_delete_noop c5wStore "p" 7 c5wPost (by decide) (by decide)

/-- Claim C8: a PATCH or DELETE of an existing post by an authenticated user
other than the author yields the 403 PERMISSION_ERROR and leaves the store —
hence every stored field of the post — completely unchanged. -/
theorem C8_non_author_forbidden (s : Store) (slug : String) (pd : PostUpdate)
    (uid : Nat) (post : Post)
    (hfind : s.posts.find? (fun p => p.slug == slug) = some post)
    (hne : post.author_id ≠ uid) :
    update_posts s slug pd uid = (s, Except.error updateForbiddenError)
    ∧ delete_post s slug uid = (s, Except.error deleteForbiddenError)
    ∧ (updateForbiddenError = ApiError.custom
        ⟨403, "You don\x27t have access to update this post.", ExType.PERMISSION_ERROR, none⟩)
    ∧ (deleteForbiddenError = ApiError.custom
        ⟨403, "You don\x27t have access to delete this post.", ExType.PERMISSION_ERROR, none⟩) := by
  have hob : get_object_or_404 s.posts slug = Except.ok post := by
    simp [get_object_or_404, hfind]
  refine ⟨?_, ?_, rfl, rfl⟩ <;>
    simp [update_posts, delete_post, hob, hne]

/-- Witness for C8 at a concrete non-author update and delete. -/
theorem C8_witness :
    update_posts c5wStore "p" c5pd 9 = (c5wStore, Except.error updateForbiddenError)
    ∧ delete_post c5wStore "p" 9 = (c5wStore, Except.error deleteForbiddenError)
    ∧ (updateForbiddenError = ApiError.custom
        ⟨403, "You don\x27t have access to update this post.", ExType.PERMISSION_ERROR, none⟩)
    ∧ (deleteForbiddenError = ApiError.custom
        ⟨403, "You don\x27t have access to delete this post.", ExType.PERMISSION_ERROR, none⟩) :=
  C8_non_author_forbidden c5wStore "p" c5pd 9 c5wPost (by decide) (by decide)

/-- Claim C10: a post's slug is immutable under PATCH /posts/{slug}: whatever
fields the payload provides, the slugs stored in the posts collection are
pointwise unchanged (the slug allocator runs only during creation, and the
update schema has no slug field). -/
theorem C10_slug_immutable (s : Store) (slug : String) (pd : PostUpdate) (uid : Nat)
    (hids : s.posts.Pairwise fun a b => a.id ≠ b.id) :
    (update_posts s slug pd uid).1.posts.map Post.slug = s.posts.map Post.slug := by
  cases hob : get_object_or_404 s.posts slug with
  | error e => simp [update_posts, hob]
  | ok post =>
    have hmem : post ∈ s.posts := by
      have hob2 := hob
      simp only [get_object_or_404] at hob2
      split at hob2
      · rename_i p0 hf
        obtain rfl : p0 = post := Except.ok.inj hob2
        exact List.mem_of_find?_eq_some hf
      · exact absurd hob2 (by simp)
    by_cases hauth : post.author_id = uid
    · have hslug : (mergedPost post pd).slug = post.slug := by
        rw [mergedPost_eq]
      simp only [update_posts, hob, hauth, bne_self_eq_false, Bool.false_eq_true, if_false]
      exact map_update_by_id Post.slug post (mergedPost post pd) hslug s.posts hmem hids
    · simp [update_posts, hob, hauth]

/-- Witness for C10 at a concrete update that changes the title. -/
theorem C10_witness :
    (update_posts c5wStore "p" c5wpd 7).1.posts.map Post.slug
      = c5wStore.posts.map Post.slug :=
  C10_slug_immutable c5wStore "p" c5wpd 7 (by simp [c5wStore])

theorem map_setslug_id (l : List Post) (pid : Nat) (c : String)
    (h : ∀ p ∈ l, p.id ≠ pid) :
    (l.map fun p => if p.id == pid then { p with slug := c } else p) = l := by
  have hid : ∀ p ∈ l, (if p.id == pid then { p with slug := c } else p) = p := by
    intro p hp
    simp [h p hp]
  rw [List.map_congr_left hid]
  exact List.map_id l

theorem map_settopicslug_id (l : List Topic) (tid : Nat) (c : String) (uid : Nat)
    (h : ∀ t ∈ l, t.id ≠ tid) :
    (l.map fun t =>
      if t.id == tid then { t with slug := some c, user_id := some uid } else t) = l := by
  have hid : ∀ t ∈ l,
      (if t.id == tid then { t with slug := some c, user_id := some uid } else t) = t := by
    intro t htm
    simp [h t htm]
  rw [List.map_congr_left hid]
  exact List.map_id l

theorem create_posts_state (s : Store) (pd : PostCreate) (uid : Nat) (ph : String)
    (r : Nat → Char) (hid : ∀ p ∈ s.posts, p.id ≠ s.nextId) :
    ((create_posts s pd uid ph r).1 = s)
    ∨ ((create_posts s pd uid ph r).1.topics = s.topics
        ∧ (create_posts s pd uid ph r).1.nextId = s.nextId + 1
        ∧ ((create_posts s pd uid ph r).1.posts = s.posts
            ∨ ∃ c, (create_posts s pd uid ph r).1.posts
                  = s.posts ++ [{ newPostOf s pd uid ph with slug := c }]
                ∧ (∀ p ∈ s.posts, p.slug ≠ c))) := by
  by_cases hph : (s.posts.all fun p => p.slug != ph) = true
  · cases halloc : (allocate_unique_slug
        (postSlugFree (insertPost s (newPostOf s pd uid ph)) s.nextId)
        (slugify pd.title) (rand_slug_str r)).2 with
    | none =>
      right
      simp only [create_posts, hph, if_true, halloc]
      refine ⟨rfl, rfl, Or.inl ?_⟩
      simp only [insertPost]
      exact filter_ne_id_append s.posts (newPostOf s pd uid ph) s.nextId hid rfl
    | some c =>
      right
      have hpersist := (allocGo_some _ _ _ attemptIndices c halloc).1
      have hfree : ∀ p ∈ s.posts, p.slug ≠ c := by
        simp only [postSlugFree, insertPost] at hpersist
        intro p hp hslug
        have hor := List.all_eq_true.mp hpersist p (List.mem_append_left _ hp)
        simp only [Bool.or_eq_true, beq_iff_eq, bne_iff_ne] at hor
        rcases hor with h1 | h2
        · exact hid p hp h1
        · exact h2 hslug
      simp only [create_posts, hph, if_true, halloc]
      refine ⟨rfl, rfl, Or.inr ⟨c, ?_, hfree⟩⟩
      simp only [setPostSlug, insertPost, List.map_append]
      rw [map_setslug_id s.posts s.nextId c hid]
      simp [newPostOf]
  · left
    simp [create_posts, hph]

theorem create_topics_state (s : Store) (td : TopicIn) (uid : Nat) (r : Nat → Char)
    (hid : ∀ t ∈ s.topics, t.id ≠ s.nextId) :
    ((create_topics s td uid r).1 = s)
    ∨ ((create_topics s td uid r).1.posts = s.posts
        ∧ (create_topics s td uid r).1.nextId = s.nextId + 1
        ∧ ((create_topics s td uid r).1.topics = s.topics
            ∨ ∃ c, (create_topics s td uid r).1.topics
                  = s.topics ++ [{ newTopicOf s td with slug := some c, user_id := some uid }]
                ∧ (∀ t ∈ s.topics, t.slug ≠ some c))) := by
  cases hfind : s.topics.find? (fun t => t.name == py_lower td.name) with
  | some t0 =>
    left
    simp [create_topics, hfind]
  | none =>
    cases halloc : (allocate_unique_slug
        (topicSlugFree (insertTopic s (newTopicOf s td)) s.nextId)
        (slugify (py_lower td.name)) (rand_slug_str r)).2 with
    | none =>
      right
      simp only [create_topics, hfind, halloc]
      refine ⟨rfl, rfl, Or.inl ?_⟩
      simp only [insertTopic]
      exact filter_ne_id_append_topic s.topics (newTopicOf s td) s.nextId hid rfl
    | some c =>
      right
      have hpersist := (allocGo_some _ _ _ attemptIndices c halloc).1
      have hfree : ∀ t ∈ s.topics, t.slug ≠ some c := by
        simp only [topicSlugFree, insertTopic] at hpersist
        intro t htm hslug
        have hor := List.all_eq_true.mp hpersist t (List.mem_append_left _ htm)
        simp only [Bool.or_eq_true, beq_iff_eq, bne_iff_ne] at hor
        rcases hor with h1 | h2
        · exact hid t htm h1
        · exact h2 hslug
      simp only [create_topics, hfind, halloc]
      refine ⟨rfl, rfl, Or.inr ⟨c, ?_, hfree⟩⟩
      simp only [setTopicSlug, insertTopic, List.map_append]
      rw [map_settopicslug_id s.topics s.nextId c uid hid]
      simp [newTopicOf]

theorem get_object_or_404_ok (posts : List Post) (slug : String) (post : Post)
    (h : get_object_or_404 posts slug = Except.ok post) :
    posts.find? (fun p => p.slug == slug) = some post ∧ post ∈ posts := by
  simp only [get_object_or_404] at h
  split at h
  · rename_i p0 hf
    obtain rfl : p0 = post := Except.ok.inj h
    exact ⟨hf, List.mem_of_find?_eq_some hf⟩
  · exact absurd h (by simp)

theorem update_posts_state (s : Store) (slug : String) (pd : PostUpdate) (uid : Nat) :
    ((update_posts s slug pd uid).1 = s)
    ∨ ∃ post, post ∈ s.posts
        ∧ (update_posts s slug pd uid).1.topics = s.topics
        ∧ (update_posts s slug pd uid).1.nextId = s.nextId
        ∧ (update_posts s slug pd uid).1.posts
            = s.posts.map fun p => if p.id == post.id then mergedPost post pd else p := by
  cases hob : get_object_or_404 s.posts slug with
  | error e =>
    left
    simp [update_posts, hob]
  | ok post =>
    by_cases hauth : post.author_id = uid
    · right
      obtain ⟨-, hmem⟩ := get_object_or_404_ok s.posts slug post hob
      refine ⟨post, hmem, ?_, ?_, ?_⟩ <;> simp [update_posts, hob, hauth]
    · left
      simp [update_posts, hob, hauth]

theorem delete_post_fst (s : Store) (slug : String) (uid : Nat) :
    (delete_post s slug uid).1 = s := by
  unfold delete_post
  split
  · rfl
  · split <;> rfl

/-- Well-formedness invariant of the store: document ids are below the fresh
counter and pairwise distinct, post slugs are pairwise distinct, topic slugs
are pairwise distinct, and every topic has a slug attached. -/
def StoreWF (s : Store) : Prop :=
  (∀ p ∈ s.posts, p.id < s.nextId)
  ∧ (∀ t ∈ s.topics, t.id < s.nextId)
  ∧ (s.posts.Pairwise fun a b => a.id ≠ b.id)
  ∧ (s.topics.Pairwise fun a b => a.id ≠ b.id)
  ∧ (s.posts.Pairwise fun a b => a.slug ≠ b.slug)
  ∧ (s.topics.Pairwise fun a b => a.slug ≠ b.slug)
  ∧ (∀ t ∈ s.topics, t.slug ≠ none)

theorem storeWF_empty : StoreWF emptyStore := by
  refine ⟨?_, ?_, ?_, ?_, ?_, ?_, ?_⟩ <;> simp [emptyStore]

theorem storeWF_step {s s' : Store} (hstep : StoreStep s s') (hwf : StoreWF s) :
    StoreWF s' := by
  obtain ⟨w1, w2, w3, w4, w5, w6, w7⟩ := hwf
  cases hstep with
  | createPost pd uid ph r =>
    have hid : ∀ p ∈ s.posts, p.id ≠ s.nextId := fun p hp => Nat.ne_of_lt (w1 p hp)
    rcases create_posts_state s pd uid ph r hid with heq | ⟨ht, hn, hp⟩
    · rw [heq]
      exact ⟨w1, w2, w3, w4, w5, w6, w7⟩
    · rcases hp with hsame | ⟨c, hposts, hfree⟩
      · refine ⟨?_, ?_, ?_, ?_, ?_, ?_, ?_⟩
        · rw [hsame, hn]
          intro p hpm
          exact Nat.lt_succ_of_lt (w1 p hpm)
        · rw [ht, hn]
          intro t htm
          exact Nat.lt_succ_of_lt (w2 t htm)
        · rw [hsame]; exact w3
        · rw [ht]; exact w4
        · rw [hsame]; exact w5
        · rw [ht]; exact w6
        · rw [ht]; exact w7
      · refine ⟨?_, ?_, ?_, ?_, ?_, ?_, ?_⟩
        · rw [hposts, hn]
          intro p hpm
          rcases List.mem_append.mp hpm with h | h
          · exact Nat.lt_succ_of_lt (w1 p h)
          · rw [List.mem_singleton] at h
            rw [h]
            exact Nat.lt_succ_self s.nextId
        · rw [ht, hn]
          intro t htm
          exact Nat.lt_succ_of_lt (w2 t htm)
        · rw [hposts, List.pairwise_append]
          refine ⟨w3, by simp, ?_⟩
          intro a ha b hb
          rw [List.mem_singleton] at hb
          rw [hb]
          exact hid a ha
        · rw [ht]; exact w4
        · rw [hposts, List.pairwise_append]
          refine ⟨w5, by simp, ?_⟩
          intro a ha b hb
          rw [List.mem_singleton] at hb
          rw [hb]
          exact hfree a ha
        · rw [ht]; exact w6
        · rw [ht]; exact w7
  | createTopic td uid r =>
    have hid : ∀ t ∈ s.topics, t.id ≠ s.nextId := fun t htm => Nat.ne_of_lt (w2 t htm)
    rcases create_topics_state s td uid r hid with heq | ⟨hp, hn, ht⟩
    · rw [heq]
      exact ⟨w1, w2, w3, w4, w5, w6, w7⟩
    · rcases ht with hsame | ⟨c, htopics, hfree⟩
      · refine ⟨?_, ?_, ?_, ?_, ?_, ?_, ?_⟩
        · rw [hp, hn]
          intro p hpm
          exact Nat.lt_succ_of_lt (w1 p hpm)
        · rw [hsame, hn]
          intro t htm
          exact Nat.lt_succ_of_lt (w2 t htm)
        · rw [hp]; exact w3
        · rw [hsame]; exact w4
        · rw [hp]; exact w5
        · rw [hsame]; exact w6
        · rw [hsame]; exact w7
      · refine ⟨?_, ?_, ?_, ?_, ?_, ?_, ?_⟩
        · rw [hp, hn]
          intro p hpm
          exact Nat.lt_succ_of_lt (w1 p hpm)
        · rw [htopics, hn]
          intro t htm
          rcases List.mem_append.mp htm with h | h
          · exact Nat.lt_succ_of_lt (w2 t h)
          · rw [List.mem_singleton] at h
            rw [h]
            exact Nat.lt_succ_self s.nextId
        · rw [hp]; exact w3
        · rw [htopics, List.pairwise_append]
          refine ⟨w4, by simp, ?_⟩
          intro a ha b hb
          rw [List.mem_singleton] at hb
          rw [hb]
          exact hid a ha
        · rw [hp]; exact w5
        · rw [htopics, List.pairwise_append]
          refine ⟨w6, by simp, ?_⟩
          intro a ha b hb
          rw [List.mem_singleton] at hb
          rw [hb]
          exact hfree a ha
        · rw [htopics]
          intro t htm
          rcases List.mem_append.mp htm with h | h
          · exact w7 t h
          · rw [List.mem_singleton] at h
            rw [h]
            simp
  | updatePost slug pd uid =>
    rcases update_posts_state s slug pd uid with heq | ⟨post, hmem, ht, hn, hposts⟩
    · rw [heq]
      exact ⟨w1, w2, w3, w4, w5, w6, w7⟩
    · have hfid : (mergedPost post pd).id = post.id := by rw [mergedPost_eq]
      have hfslug : (mergedPost post pd).slug = post.slug := by rw [mergedPost_eq]
      have hmapid := map_update_by_id Post.id post (mergedPost post pd) hfid s.posts hmem w3
      have hmapslug := map_update_by_id Post.slug post (mergedPost post pd) hfslug s.posts hmem w3
      refine ⟨?_, ?_, ?_, ?_, ?_, ?_, ?_⟩
      · rw [hposts, hn]
        intro p hpm
        have h1 := List.mem_map_of_mem Post.id hpm
        rw [hmapid] at h1
        obtain ⟨q, hq, hqe⟩ := List.mem_map.mp h1
        rw [← hqe]
        exact w1 q hq
      · rw [ht, hn]; exact w2
      · rw [hposts]
        refine (List.pairwise_map).mp ?_
        rw [hmapid]
        exact (List.pairwise_map).mpr w3
      · rw [ht]; exact w4
      · rw [hposts]
        refine (List.pairwise_map).mp ?_
        rw [hmapslug]
        exact (List.pairwise_map).mpr w5
      · rw [ht]; exact w6
      · rw [ht]; exact w7
  | deletePost slug uid =>
    rw [delete_post_fst]
    exact ⟨w1, w2, w3, w4, w5, w6, w7⟩

theorem storeWF_reachable (s : Store) (h : Reachable s) : StoreWF s := by
  induction h with
  | refl => exact storeWF_empty
  | tail h1 h2 ih =>
    exact storeWF_step h2 ih

/-- Claim C6 (amended): at every reachable state of the store, persisted Posts
have pairwise-distinct slugs, persisted Topics have pairwise-distinct slugs and
every Topic has a slug attached; the slug need not be non-empty — a title or
name whose slugified form is empty can be stored with an empty slug. -/
theorem C6_slug_uniqueness (s : Store) (h : Reachable s) :
    (s.posts.Pairwise fun a b => a.slug ≠ b.slug)
    ∧ (s.topics.Pairwise fun a b => a.slug ≠ b.slug)
    ∧ (∀ t ∈ s.topics, t.slug ≠ none) := by
  obtain ⟨-, -, -, -, w5, w6, w7⟩ := storeWF_reachable s h
  exact ⟨w5, w6, w7⟩

/-- Creation payload whose title slugifies to the empty string. -/
def c6pd : PostCreate := ⟨"!!!", none, none, none, none, []⟩

/-- The store reached by creating a post titled `!!!` in the empty store. -/
def c6Bad : Store := (create_posts emptyStore c6pd 0 "x" aChar).1

set_option maxRecDepth 4000 in
/-- Counterexample for C6 as stated: `c6Bad` is reachable, yet its single post
has the empty slug — slugs of persisted posts are not always non-empty. -/
theorem C6_counterexample :
    Reachable c6Bad ∧ c6Bad.posts.map Post.slug = [""] :=
  ⟨Relation.ReflTransGen.single (StoreStep.createPost emptyStore c6pd 0 "x" aChar), rfl⟩

/-- A well-behaved creation payload used by the C6 witness. -/
def c6wpd : PostCreate := ⟨"Hello", none, none, none, none, []⟩

/-- The store reached by creating a post titled `Hello` in the empty store. -/
def c6wStore : Store := (create_posts emptyStore c6wpd 3 "ph" aChar).1

/-- Witness for the amended C6 at a concrete reachable store. -/
theorem C6_witness :
    (c6wStore.posts.Pairwise fun a b => a.slug ≠ b.slug)
    ∧ (c6wStore.topics.Pairwise fun a b => a.slug ≠ b.slug)
    ∧ (∀ t ∈ c6wStore.topics, t.slug ≠ none) :=
  C6_slug_uniqueness c6wStore
    (Relation.ReflTransGen.single (StoreStep.createPost emptyStore c6wpd 3 "ph" aChar))
